import Mathlib

/-!
Verification of the Hebrew video/audio downloader (src/app.py).

This file gives a shallow embedding of the app-owned logic of `app.py`:
URL validation, platform identification, yt-dlp option building, the
download orchestrator, the analyze-error classifier, and the session-state
transitions of the Streamlit `main` handler.  External effects (network,
yt-dlp, the filesystem) are modelled explicitly: the yt-dlp fetch call is an
abstract state transformer on a small filesystem model, and the
`tempfile.TemporaryDirectory` context manager is embedded with its
guaranteed-cleanup semantics.

Python strings are embedded as Lean `String`.  The Hebrew literals in
`app.py` are stored in the repository in a mojibake encoding; the escape
sequences below reproduce the exact code points of the file.  Character classes
of the validation regex (`[A-Z]`, `\d`, `\S` under `re.IGNORECASE`) are
modelled with their ASCII meaning, and `str.strip` / `str.lower` with
ASCII whitespace/case folding; this is exact on all ASCII inputs.
-/

namespace App

/-- Python `s.strip()`: remove leading and trailing whitespace. -/
def pyStrip (s : String) : String :=
  ⟨(((s.data.dropWhile Char.isWhitespace).reverse.dropWhile Char.isWhitespace).reverse)⟩

/-- Python `s.lower()`: lowercase every character. -/
def pyLower (s : String) : String := ⟨s.data.map Char.toLower⟩

/-- Python `needle in hay` on strings: contiguous-substring test. -/
def strContains (hay needle : String) : Bool :=
  decide (needle.data <:+: hay.data)

/-! ### URL validation (src/app.py, `validate_url`, lines 365-378)

The regex
`^https?://(?:(?:[A-Z0-9](?:[A-Z0-9-]{0,61}[A-Z0-9])?\.)+[A-Z]{2,6}\.?|localhost|\d{1,3}\.\d{1,3}\.\d{1,3}\.\d{1,3})(?::\d+)?(?:/?|[/?]\S+)$`
(with `re.IGNORECASE`) is compiled piecewise into nondeterministic
matchers: each piece maps a character list to the list of possible
remainders after matching that piece.  Acceptance of the whole pattern is
the existence of a remainder accepted by the end-anchor piece, which is
exactly the backtracking semantics of `re.match`.  The input to the
matcher is the stripped URL, which never ends in a newline, so `$` is
end-of-input. -/

/-- Case-insensitively consume the literal `ps` from the front of `cs`. -/
def stripCI : List Char → List Char → Option (List Char)
  | [], cs => some cs
  | _ :: _, [] => none
  | p :: ps, c :: cs => if c.toLower == p.toLower then stripCI ps cs else none

/-- The class `[A-Z0-9]` under `re.IGNORECASE` (ASCII). -/
def isAlnumChar (c : Char) : Bool := c.isAlpha || c.isDigit

/-- The class `[A-Z0-9-]` under `re.IGNORECASE` (ASCII). -/
def isAlnumDash (c : Char) : Bool := isAlnumChar c || c == '-'

/-- Remainders after `[A-Z0-9-]{0,61}[A-Z0-9]` with at most `n` leading
class characters still allowed. -/
def middleTails : Nat → List Char → List (List Char)
  | _, [] => []
  | n, c :: rest =>
    (if isAlnumChar c then [rest] else []) ++
    (match n with
     | 0 => []
     | m + 1 => if isAlnumDash c then middleTails m rest else [])

/-- Remainders after one domain label `[A-Z0-9](?:[A-Z0-9-]{0,61}[A-Z0-9])?`. -/
def labelTails (cs : List Char) : List (List Char) :=
  match cs with
  | [] => []
  | c :: rest => if isAlnumChar c then rest :: middleTails 61 rest else []

/-- Consume a literal `.` at the head of every remainder. -/
def dotAfter (ts : List (List Char)) : List (List Char) :=
  ts.filterMap fun t =>
    match t with
    | c :: r => if c == '.' then some r else none
    | [] => none

/-- Remainders after `(?:label\.)+`, fuelled (each repetition consumes at
least two characters, so `length + 1` fuel is always enough). -/
def labelDotPlusTails : Nat → List Char → List (List Char)
  | 0, _ => []
  | f + 1, cs =>
    let once := dotAfter (labelTails cs)
    once ++ once.flatMap (labelDotPlusTails f)

/-- Consume exactly `n` characters of class `[A-Z]`. -/
def exactAlphaTail : Nat → List Char → Option (List Char)
  | 0, cs => some cs
  | _ + 1, [] => none
  | n + 1, c :: cs => if c.isAlpha then exactAlphaTail n cs else none

/-- Remainders after the TLD `[A-Z]{2,6}`. -/
def tldTails (cs : List Char) : List (List Char) :=
  [2, 3, 4, 5, 6].filterMap fun k => exactAlphaTail k cs

/-- Remainders after an optional literal `.` (`\.?`). -/
def optDotTails (t : List Char) : List (List Char) :=
  t :: (match t with
        | c :: r => if c == '.' then [r] else []
        | [] => [])

/-- Remainders after the domain alternative
`(?:[A-Z0-9](?:[A-Z0-9-]{0,61}[A-Z0-9])?\.)+[A-Z]{2,6}\.?`. -/
def domainTails (cs : List Char) : List (List Char) :=
  ((labelDotPlusTails (cs.length + 1) cs).flatMap tldTails).flatMap optDotTails

/-- Remainders after the literal alternative `localhost`. -/
def localhostTails (cs : List Char) : List (List Char) :=
  match stripCI "localhost".data cs with
  | some r => [r]
  | none => []

/-- Consume exactly `n` characters of class `\d`. -/
def exactDigitsTail : Nat → List Char → Option (List Char)
  | 0, cs => some cs
  | _ + 1, [] => none
  | n + 1, c :: cs => if c.isDigit then exactDigitsTail n cs else none

/-- Remainders after `\d{1,3}`. -/
def d13Tails (cs : List Char) : List (List Char) :=
  [1, 2, 3].filterMap fun k => exactDigitsTail k cs

/-- Remainders after the IPv4 alternative `\d{1,3}\.\d{1,3}\.\d{1,3}\.\d{1,3}`. -/
def ipv4Tails (cs : List Char) : List (List Char) :=
  (dotAfter ((dotAfter ((dotAfter (d13Tails cs)).flatMap d13Tails)).flatMap
    d13Tails)).flatMap d13Tails

/-- Remainders after the host alternation of the regex. -/
def hostTails (cs : List Char) : List (List Char) :=
  domainTails cs ++ localhostTails cs ++ ipv4Tails cs

/-- Remainders after `\d+`. -/
def digitPlusTails : List Char → List (List Char)
  | [] => []
  | c :: rest => if c.isDigit then rest :: digitPlusTails rest else []

/-- Remainders after the optional port `(?::\d+)?`. -/
def portTails (t : List Char) : List (List Char) :=
  t :: (match t with
        | c :: r => if c == ':' then digitPlusTails r else []
        | [] => [])

/-- The end piece `(?:/?|[/?]\S+)$`: an optional `/` and end of input, or
`/` or `?` followed by one or more non-whitespace characters and end. -/
def endOk : List Char → Bool
  | [] => true
  | [c] => c == '/'
  | c :: rest => (c == '/' || c == '?') && rest.all fun ch => !ch.isWhitespace

/-- Remainders after the anchored scheme `^https?://`. -/
def schemeTails (cs : List Char) : List (List Char) :=
  match stripCI "http".data cs with
  | none => []
  | some r =>
    (match stripCI "s://".data r with
     | some r2 => [r2]
     | none => []) ++
    (match stripCI "://".data r with
     | some r2 => [r2]
     | none => [])

/-- `validate_url` (src/app.py lines 365-378): reject empty or
whitespace-only input, then match the stripped input against the URL
regex. -/
def validate_url (url : String) : Bool :=
  if url == "" || pyStrip url == "" then false
  else
    let cs := (pyStrip url).data
    (((schemeTails cs).flatMap hostTails).flatMap portTails).any endOk

/-! ### Platform identification (src/app.py, `get_platform_name`, lines 396-417) -/

/-- The label returned when no platform matches; the repository stores the
Hebrew word for "other" in a mojibake encoding, reproduced here exactly. -/
def otherLabel : String := "××—×¨"

/-- The fixed `platforms` table of `get_platform_name`, in source
insertion order (Python dicts iterate in insertion order). -/
def platforms : List (String × String) :=
  [("youtube.com", "YouTube"),
   ("youtu.be", "YouTube"),
   ("tiktok.com", "TikTok"),
   ("instagram.com", "Instagram"),
   ("facebook.com", "Facebook"),
   ("twitter.com", "X (Twitter)"),
   ("x.com", "X (Twitter)"),
   ("vimeo.com", "Vimeo"),
   ("dailymotion.com", "Dailymotion"),
   ("twitch.tv", "Twitch"),
   ("reddit.com", "Reddit"),
   ("soundcloud.com", "SoundCloud"),
   ("spotify.com", "Spotify")]

/-- The `for domain, name in platforms.items()` loop body of
`get_platform_name`: return the first matching name, else the default. -/
def platformLoop : List (String × String) → String → String
  | [], _ => otherLabel
  | (domain, name) :: rest, u =>
    if strContains u domain then name else platformLoop rest u

/-- `get_platform_name` (src/app.py lines 396-417). -/
def get_platform_name (url : String) : String :=
  platformLoop platforms (pyLower url)

/-! ### The analyze-handler error classifier (src/app.py lines 643-654)

The `except` branch of the analyze handler turns the text of the raised error
into one of five user-facing messages.  The five branches are modelled as
an inductive result; the `generic` branch carries the truncated raw error
text `error_msg[:100]` that the fallback message interpolates. -/

inductive ErrClass where
  | loginRequired
  | instagramLogin
  | blocked
  | notAvailable
  | generic (truncated : String)
  deriving DecidableEq, Repr

/-- Python `s[:100]`. -/
def pyTake100 (s : String) : String := ⟨s.data.take 100⟩

/-- The if/elif classifier of the analyze handler (src/app.py lines
644-654), applied to `str(e)`. -/
def classify_error (error_msg : String) : ErrClass :=
  if strContains (pyLower error_msg) "login" ||
     strContains (pyLower error_msg) "cookies" then
    .loginRequired
  else if strContains (pyLower error_msg) "instagram" then
    .instagramLogin
  else if strContains error_msg "403" ||
          strContains (pyLower error_msg) "blocked" ||
          strContains (pyLower error_msg) "rate" then
    .blocked
  else if strContains (pyLower error_msg) "not available" then
    .notAvailable
  else
    .generic (pyTake100 error_msg)

/-! ### yt-dlp option building (src/app.py, `build_ydl_options`, lines 488-552) -/

/-- A yt-dlp post-processor entry, keyed as in the source: the video
branch appends a dict with key FFmpegVideoConvertor and field
preferedformat (spelled as in the source), the audio branch a dict with
key FFmpegExtractAudio and fields preferredcodec and preferredquality. -/
inductive Postprocessor where
  | ffmpegVideoConvertor (preferedformat : String)
  | ffmpegExtractAudio (preferredcodec : String) (preferredquality : String)
  deriving DecidableEq, Repr

/-- The yt-dlp options dict assembled by `build_ydl_options`, restricted
to the keys the function writes.  `format` and `postprocessors` are absent
from the base dict (`none` / `[]`) and filled in per branch;
`merge_output_format` holds Python `None` as `none`. -/
structure YdlOptions where
  outtmpl : String
  quiet : Bool
  no_warnings : Bool
  merge_output_format : Option String
  postprocessor_args : List String
  http_headers : List (String × String)
  format : Option String
  postprocessors : List Postprocessor
  deriving DecidableEq, Repr

/-- POSIX `os.path.join` for the two-argument case used in the source. -/
def os_path_join (a b : String) : String :=
  if b.startsWith "/" then b
  else if a == "" || a.endsWith "/" then a ++ b
  else a ++ "/" ++ b

/-- Python `dict.get(key, default)` over an insertion-ordered dict. -/
def dict_get (m : List (String × String)) (key dflt : String) : String :=
  match m.find? (fun p => p.1 == key) with
  | some p => p.2
  | none => dflt

/-- The `http_headers` literal shared by the base options. -/
def browser_headers : List (String × String) :=
  [("User-Agent", "Mozilla/5.0 (Windows NT 10.0; Win64; x64) AppleWebKit/537.36 (KHTML, like Gecko) Chrome/120.0.0.0 Safari/537.36"),
   ("Accept", "text/html,application/xhtml+xml,application/xml;q=0.9,*/*;q=0.8"),
   ("Accept-Language", "en-US,en;q=0.5")]

/-- The mojibake-encoded Hebrew label for the "best" quality tier, exactly
as stored in the repository (used as a key in both quality maps). -/
def bestTierLabel : String :=
  "×”×›×™ ×˜×•×‘"

/-- The video `quality_map` literal (src/app.py lines 506-511). -/
def video_quality_map : List (String × String) :=
  [(bestTierLabel, "bestvideo+bestaudio/best"),
   ("4K (2160p)", "bestvideo[height<=2160]+bestaudio/best[height<=2160]"),
   ("1080p", "bestvideo[height<=1080]+bestaudio/best[height<=1080]"),
   ("720p", "bestvideo[height<=720]+bestaudio/best[height<=720]")]

/-- The audio `quality_map` literal (src/app.py lines 528-532). -/
def audio_quality_map : List (String × String) :=
  [(bestTierLabel, "0"), ("192kbps", "192"), ("128kbps", "128")]

/-- The audio `format_map` literal (src/app.py lines 537-541). -/
def audio_format_map : List (String × String) :=
  [("mp3", "mp3"), ("m4a", "m4a"), ("wav", "wav")]

/-- `build_ydl_options` (src/app.py lines 488-552). -/
def build_ydl_options (temp_dir download_type extension quality : String) :
    YdlOptions :=
  let base_opts : YdlOptions :=
    { outtmpl := os_path_join temp_dir "%(title)s.%(ext)s",
      quiet := false,
      no_warnings := false,
      merge_output_format :=
        if download_type == "video" then some extension else none,
      postprocessor_args := ["-y"],
      http_headers := browser_headers,
      format := none,
      postprocessors := [] }
  if download_type == "video" then
    let withFormat :=
      { base_opts with
          format := some (dict_get video_quality_map quality
            "bestvideo+bestaudio/best") }
    if extension == "mp4" then
      { withFormat with postprocessors := [.ffmpegVideoConvertor "mp4"] }
    else if extension == "mkv" then
      { withFormat with merge_output_format := some "mkv" }
    else if extension == "webm" then
      { withFormat with merge_output_format := some "webm" }
    else withFormat
  else
    let audio_quality := dict_get audio_quality_map quality "0"
    let audio_format := dict_get audio_format_map extension "mp3"
    { base_opts with
        format := some "bestaudio/best",
        postprocessors :=
          [.ffmpegExtractAudio audio_format audio_quality] }

/-- The preferredcodec field of a lone audio-extraction post-processor. -/
def preferredCodecOf (o : YdlOptions) : Option String :=
  match o.postprocessors with
  | [Postprocessor.ffmpegExtractAudio c _] => some c
  | _ => none

/-- The preferredquality field of a lone audio-extraction post-processor. -/
def preferredQualityOf (o : YdlOptions) : Option String :=
  match o.postprocessors with
  | [Postprocessor.ffmpegExtractAudio _ qv] => some qv
  | _ => none

/-! ### Download orchestration (src/app.py, `download_content`, lines 554-581)

The filesystem is modelled as an association list from directory names to
their file listings (file name and content bytes), the listing order being
the glob enumeration order of the scratch directory.  The yt-dlp call
`ydl.download([url])` is an abstract state transformer that may
mutate the filesystem and either return normally or raise.
`tempfile.TemporaryDirectory` creates the scratch directory on entry and
removes the directory tree on every exit path; the `try`/`except` inside
re-raises, so the whole call either returns the name and
bytes of the first file or propagates an error, and cleanup always runs. -/

/-- A directory listing: file names with their content bytes. -/
abbrev DirFiles := List (String × List Nat)

/-- The filesystem model: directory name to listing. -/
abbrev FS := List (String × DirFiles)

/-- Whether directory `d` exists. -/
def FS.dirExists (fs : FS) (d : String) : Bool :=
  fs.any fun e => e.1 == d

/-- The listing of directory `d` (empty when absent). -/
def FS.filesOf (fs : FS) (d : String) : DirFiles :=
  match fs.find? (fun e => e.1 == d) with
  | some e => e.2
  | none => []

/-- Remove directory `d` and everything inside it. -/
def FS.removeDir (fs : FS) (d : String) : FS :=
  fs.filter fun e => !(e.1 == d)

/-- Create empty directory `d`. -/
def FS.addDir (fs : FS) (d : String) : FS := (d, []) :: fs

/-- The mojibake-encoded Hebrew message of
`raise Exception("no downloaded file found")` (src/app.py line 577),
exactly as stored in the repository. -/
def noFileMsg : String :=
  "×œ× × ××¦× ×§×•×‘×¥ ×©×”×•×¨×“"

/-- `download_content` (src/app.py lines 554-581), given the initial
filesystem, the fresh scratch-directory name chosen by
`tempfile.TemporaryDirectory`, and the abstract yt-dlp fetch effect.
Returns the outcome of the call (`Except` models raising) and the filesystem
after the call. -/
def download_content (fs : FS) (temp_dir : String)
    (fetch : FS → FS × Except String Unit) :
    Except String (String × List Nat) × FS :=
  let fs0 := FS.addDir fs temp_dir
  let (fs1, r) := fetch fs0
  let result : Except String (String × List Nat) :=
    match r with
    | .error e => .error e
    | .ok _ =>
      match FS.filesOf fs1 temp_dir with
      | [] => .error noFileMsg
      | f :: _ => .ok (f.1, f.2)
  (result, FS.removeDir fs1 temp_dir)

/-! ### Session state and the `main` handlers (src/app.py lines 587-785)

`main` is re-run by Streamlit on every interaction.  The state it keeps
across runs is `st.session_state.metadata`, `st.session_state.file_ready`
and `st.session_state.file_name`; everything else is recomputed.  A single
re-run is modelled as a step function on that state, driven by which
button (if any) fired and by the outcome of the external call the fired
handler makes. -/

/-- The normalized metadata record built by `extract_metadata`
(src/app.py lines 470-479); the opaque format records are kept as
strings. -/
structure Metadata where
  title : String
  duration : Nat
  thumbnail : String
  uploader : String
  view_count : Nat
  platform : String
  url : String
  formats : List String
  deriving DecidableEq, Repr

/-- The persistent Streamlit session state (src/app.py lines 602-607). -/
structure SessionState where
  metadata : Option Metadata
  file_ready : Option (List Nat)
  file_name : Option String
  deriving DecidableEq, Repr

/-- Outcome of `extract_metadata(url)` as observed by the analyze
handler: a record, a falsy result, or a raised error message. -/
inductive ExtractOutcome where
  | ok (m : Metadata)
  | empty
  | err (msg : String)
  deriving DecidableEq, Repr

/-- Outcome of `download_content(...)` as observed by the download
handler: a name/bytes pair or a raised error message. -/
inductive FetchOutcome where
  | ok (name : String) (bytes : List Nat)
  | err (msg : String)
  deriving DecidableEq, Repr

/-- The interaction of one Streamlit re-run: the analyze button fired with the
given URL text and extraction outcome, the download button fired with the
given download outcome, or neither fired. -/
inductive Event where
  | analyze (url : String) (res : ExtractOutcome)
  | download (res : FetchOutcome)
  | idle
  deriving DecidableEq, Repr

/-- The fresh-session initialization (src/app.py lines 602-607). -/
def initState : SessionState :=
  { metadata := none, file_ready := none, file_name := none }

/-- One re-run of the state-mutating handlers of `main` (src/app.py lines
630-654 and 736-754).  The analyze handler runs only when the button
fired and the URL text is non-empty (`if analyze_btn and url:`); on a
valid URL and successful extraction it stores the metadata and resets
`file_ready` to `None`.  The download handler is only reachable while
metadata is present; on success it stores the returned bytes and name.
Every failure branch only renders an error message and leaves the state
untouched. -/
def mainStep (s : SessionState) (e : Event) : SessionState :=
  match e with
  | .analyze url res =>
    if url == "" then s
    else if !validate_url url then s
    else
      match res with
      | .ok m => { s with metadata := some m, file_ready := none }
      | .empty => s
      | .err _ => s
  | .download res =>
    match s.metadata with
    | some _ =>
      match res with
      | .ok name bytes =>
        { s with file_ready := some bytes, file_name := some name }
      | .err _ => s
    | none => s
  | .idle => s

/-! ### Spec-side predicate for claim C7

`containsSchemeCI s` says the raw input contains an `http://` or
`https://` scheme somewhere, case-insensitively — the property whose
absence the spec says forces rejection. -/

/-- The input contains `http://` or `https://`, case-insensitively. -/
def containsSchemeCI (s : String) : Bool :=
  decide ("http://".data <:+: s.data.map Char.toLower) ||
  decide ("https://".data <:+: s.data.map Char.toLower)

/-! ### Sample values used by the claim-C4 counterexample -/

/-- A concrete metadata record, as `extract_metadata` would produce. -/
def sampleMeta : Metadata :=
  { title := "t", duration := 10, thumbnail := "", uploader := "u",
    view_count := 3, platform := "YouTube", url := "http://a.com",
    formats := [] }

/-- A session that has analyzed a URL and holds a prepared download. -/
def sampleLoaded : SessionState :=
  { metadata := some sampleMeta, file_ready := some [1, 2],
    file_name := some "a.mp4" }

/-! ## Theorems -/

theorem preIsIn {α : Type} {l₁ l₂ : List α} (h : l₁ <+: l₂) : l₁ <:+: l₂ := by
  obtain ⟨t, ht⟩ := h
  exact ⟨[], t, by simpa using ht⟩

theorem sufIsIn {α : Type} {l₁ l₂ : List α} (h : l₁ <:+ l₂) : l₁ <:+: l₂ := by
  obtain ⟨t, ht⟩ := h
  exact ⟨t, [], by simpa using ht⟩

theorem stripCI_append (p₁ p₂ cs : List Char) :
    stripCI (p₁ ++ p₂) cs = (stripCI p₁ cs).bind (stripCI p₂) := by
  induction p₁ generalizing cs with
  | nil => simp [stripCI]
  | cons p ps ih =>
    cases cs with
    | nil => simp [stripCI]
    | cons c cs =>
      simp only [List.cons_append, stripCI]
      by_cases hc : c.toLower == p.toLower
      · simp [hc, ih]
      · simp [hc]

theorem stripCI_toLower (ps : List Char) : ∀ (cs r : List Char),
    stripCI ps cs = some r →
    cs.map Char.toLower = ps.map Char.toLower ++ r.map Char.toLower := by
  induction ps with
  | nil =>
    intro cs r h
    simp [stripCI] at h
    simp [h]
  | cons p ps ih =>
    intro cs r h
    cases cs with
    | nil => simp [stripCI] at h
    | cons c cs =>
      simp only [stripCI] at h
      by_cases hc : c.toLower == p.toLower
      · rw [if_pos hc] at h
        have hce : c.toLower = p.toLower := by
          simpa using hc
        simp [List.map_cons, hce, ih cs r h]
      · rw [if_neg hc] at h
        exact absurd h (by simp)

theorem schemeTails_scheme (cs : List Char) (h : schemeTails cs ≠ []) :
    "http://".data <+: cs.map Char.toLower ∨
    "https://".data <+: cs.map Char.toLower := by
  cases h1 : stripCI "http".data cs with
  | none => exact absurd (by simp [schemeTails, h1]) h
  | some r =>
    cases h2 : stripCI "s://".data r with
    | some r2 =>
      right
      have hA : stripCI ("http".data ++ "s://".data) cs = some r2 := by
        rw [stripCI_append, h1]
        simpa using h2
      have hE : ("http".data ++ "s://".data) = "https://".data := by decide
      rw [hE] at hA
      have hM := stripCI_toLower _ _ _ hA
      have hlow : "https://".data.map Char.toLower = "https://".data := by
        decide
      rw [hlow] at hM
      exact ⟨r2.map Char.toLower, hM.symm⟩
    | none =>
      cases h3 : stripCI "://".data r with
      | none => exact absurd (by simp [schemeTails, h1, h2, h3]) h
      | some r3 =>
        left
        have hA : stripCI ("http".data ++ "://".data) cs = some r3 := by
          rw [stripCI_append, h1]
          simpa using h3
        have hE : ("http".data ++ "://".data) = "http://".data := by decide
        rw [hE] at hA
        have hM := stripCI_toLower _ _ _ hA
        have hlow : "http://".data.map Char.toLower = "http://".data := by
          decide
        rw [hlow] at hM
        exact ⟨r3.map Char.toLower, hM.symm⟩

theorem pyStrip_isIn (s : String) : (pyStrip s).data <:+: s.data := by
  have h1 : s.data.dropWhile Char.isWhitespace <:+ s.data :=
    List.dropWhile_suffix _
  have h2 : ((s.data.dropWhile Char.isWhitespace).reverse.dropWhile
      Char.isWhitespace).reverse <+: s.data.dropWhile Char.isWhitespace := by
    rw [← List.reverse_suffix, List.reverse_reverse]
    exact List.dropWhile_suffix _
  exact List.IsInfix.trans (preIsIn h2) (sufIsIn h1)

/-- C7: for every input string that does not contain an http or https URL
scheme — in particular the empty string and all whitespace-only strings —
`validate_url` returns false.  The regex of `validate_url` is anchored on
`https?://`, so an input containing no scheme at all can never match. -/
theorem validate_url_rejects_schemeless (url : String)
    (h : containsSchemeCI url = false) : validate_url url = false := by
  unfold validate_url
  cases hb : (url == "" || pyStrip url == "") with
  | true => simp [hb]
  | false =>
    simp only [hb, Bool.false_eq_true, if_false]
    by_cases hs : schemeTails ((pyStrip url).data) = []
    · simp [hs]
    · exfalso
      have hmap := List.IsInfix.map Char.toLower (pyStrip_isIn url)
      have htrue : containsSchemeCI url = true := by
        unfold containsSchemeCI
        simp only [Bool.or_eq_true, decide_eq_true_eq]
        cases schemeTails_scheme _ hs with
        | inl hp => exact Or.inl (List.IsInfix.trans (preIsIn hp) hmap)
        | inr hp => exact Or.inr (List.IsInfix.trans (preIsIn hp) hmap)
      rw [h] at htrue
      exact Bool.noConfusion htrue

theorem validate_url_rejects_schemeless_w :
    containsSchemeCI "not-a-url" = false ∧
    validate_url "not-a-url" = false ∧
    containsSchemeCI "" = false ∧ validate_url "" = false ∧
    containsSchemeCI "   " = false ∧ validate_url "   " = false :=
  ⟨by decide, validate_url_rejects_schemeless "not-a-url" (by decide),
   by decide, validate_url_rejects_schemeless "" (by decide),
   by decide, validate_url_rejects_schemeless "   " (by decide)⟩

theorem platformLoop_find (l : List (String × String)) (u : String) :
    platformLoop l u =
      (((l.find? fun p => strContains u p.1).map Prod.snd).getD otherLabel) := by
  induction l with
  | nil => simp [platformLoop]
  | cons hd tl ih =>
    cases hd with
    | mk d n =>
      cases hc : strContains u d with
      | true => simp [platformLoop, List.find?, hc]
      | false => simp [platformLoop, List.find?, hc, ih]

/-- C8: `get_platform_name` is total — every input yields exactly one
label, namely the label of the first entry of the fixed `platforms` table
(in table order) whose domain is a substring of the lowercased URL, and
the generic other-label when no entry matches. -/
theorem get_platform_name_first_match (url : String) :
    get_platform_name url =
      (((platforms.find? fun p =>
          strContains (pyLower url) p.1).map Prod.snd).getD otherLabel) :=
  platformLoop_find platforms (pyLower url)

/-- C9: every extraction error whose message contains the substring
"login required" is classified into the login-required branch of the
analyze handler, never into the generic truncated-raw-error fallback. -/
theorem classify_error_login_required (msg : String)
    (h : strContains msg "login required" = true) :
    classify_error msg = ErrClass.loginRequired ∧
    ∀ t, classify_error msg ≠ ErrClass.generic t := by
  have h1 : "login required".data <:+: msg.data := of_decide_eq_true h
  have h2 := List.IsInfix.map Char.toLower h1
  have h3 : "login".data <+: "login required".data.map Char.toLower := by
    decide
  have h4 : "login".data <:+: msg.data.map Char.toLower :=
    List.IsInfix.trans (preIsIn h3) h2
  have hlow : strContains (pyLower msg) "login" = true := decide_eq_true h4
  refine ⟨?_, ?_⟩
  · unfold classify_error
    rw [hlow]
    simp
  · intro t
    unfold classify_error
    rw [hlow]
    simp

theorem classify_error_login_required_w :
    strContains "Sign in: login required" "login required" = true ∧
    classify_error "Sign in: login required" = ErrClass.loginRequired :=
  ⟨by decide,
   (classify_error_login_required "Sign in: login required" (by decide)).1⟩

theorem build_video_format (td ext q : String) :
    (build_ydl_options td "video" ext q).format =
      some (dict_get video_quality_map q "bestvideo+bestaudio/best") := by
  unfold build_ydl_options
  simp [apply_ite YdlOptions.format]

/-- C1: for video downloads, `build_ydl_options` takes the format
selector from the fixed quality-tier table (best, then height caps 2160,
1080, 720, each requesting best video plus best audio under the cap), and
every tier not in the table — including the label "best", since the table
keys are the Hebrew UI labels — yields exactly the best-available
selector; being a total function it never raises.  In particular, for
type video, extension mp4, quality "best", the configuration has format
selector bestvideo+bestaudio/best, merge container mp4, and an mp4
conversion post-processor. -/
theorem build_ydl_options_video (temp_dir extension quality : String)
    (h : video_quality_map.find? (fun p => p.1 == quality) = none) :
    (build_ydl_options temp_dir "video" extension quality).format =
      some "bestvideo+bestaudio/best" ∧
    (build_ydl_options temp_dir "video" extension bestTierLabel).format =
      some "bestvideo+bestaudio/best" ∧
    (build_ydl_options temp_dir "video" extension "4K (2160p)").format =
      some "bestvideo[height<=2160]+bestaudio/best[height<=2160]" ∧
    (build_ydl_options temp_dir "video" extension "1080p").format =
      some "bestvideo[height<=1080]+bestaudio/best[height<=1080]" ∧
    (build_ydl_options temp_dir "video" extension "720p").format =
      some "bestvideo[height<=720]+bestaudio/best[height<=720]" ∧
    (build_ydl_options temp_dir "video" "mp4" "best").format =
      some "bestvideo+bestaudio/best" ∧
    (build_ydl_options temp_dir "video" "mp4" "best").merge_output_format =
      some "mp4" ∧
    (build_ydl_options temp_dir "video" "mp4" "best").postprocessors =
      [Postprocessor.ffmpegVideoConvertor "mp4"] := by
  refine ⟨?_, ?_, ?_, ?_, ?_, rfl, rfl, rfl⟩
  · rw [build_video_format]
    unfold dict_get
    rw [h]
  · rw [build_video_format]; decide
  · rw [build_video_format]; decide
  · rw [build_video_format]; decide
  · rw [build_video_format]; decide

theorem build_ydl_options_video_w :
    video_quality_map.find? (fun p => p.1 == "best") = none ∧
    (build_ydl_options "/tmp/scratch" "video" "mp4" "best").format =
      some "bestvideo+bestaudio/best" :=
  ⟨by decide,
   (build_ydl_options_video "/tmp/scratch" "mp4" "best" (by decide)).1⟩

theorem build_audio_fields (td ext q : String) :
    (build_ydl_options td "audio" ext q).format = some "bestaudio/best" ∧
    (build_ydl_options td "audio" ext q).postprocessors =
      [Postprocessor.ffmpegExtractAudio (dict_get audio_format_map ext "mp3")
        (dict_get audio_quality_map q "0")] := by
  unfold build_ydl_options
  simp

theorem build_audio_pp (td ext q : String) :
    preferredCodecOf (build_ydl_options td "audio" ext q) =
      some (dict_get audio_format_map ext "mp3") ∧
    preferredQualityOf (build_ydl_options td "audio" ext q) =
      some (dict_get audio_quality_map q "0") := by
  have hp := (build_audio_fields td ext q).2
  constructor
  · unfold preferredCodecOf
    rw [hp]
  · unfold preferredQualityOf
    rw [hp]

/-- C5: for audio downloads, `build_ydl_options` always selects
best-available audio regardless of extension and quality, and attaches an
audio-extraction post-processor whose codec is the requested extension
for mp3/m4a/wav and mp3 for any other extension, and whose quality is the
library code 0 for the best tier, the numeric kbps string for the
192kbps/128kbps tiers, and 0 for every unrecognized tier; being a total
function it never raises. -/
theorem build_ydl_options_audio (td ext q : String)
    (hext : audio_format_map.find? (fun p => p.1 == ext) = none)
    (hq : audio_quality_map.find? (fun p => p.1 == q) = none) :
    (∀ e u : String,
      (build_ydl_options td "audio" e u).format = some "bestaudio/best") ∧
    (∀ u, preferredCodecOf (build_ydl_options td "audio" "mp3" u) =
      some "mp3") ∧
    (∀ u, preferredCodecOf (build_ydl_options td "audio" "m4a" u) =
      some "m4a") ∧
    (∀ u, preferredCodecOf (build_ydl_options td "audio" "wav" u) =
      some "wav") ∧
    (∀ u, preferredCodecOf (build_ydl_options td "audio" ext u) =
      some "mp3") ∧
    (∀ e, preferredQualityOf (build_ydl_options td "audio" e bestTierLabel) =
      some "0") ∧
    (∀ e, preferredQualityOf (build_ydl_options td "audio" e "192kbps") =
      some "192") ∧
    (∀ e, preferredQualityOf (build_ydl_options td "audio" e "128kbps") =
      some "128") ∧
    (∀ e, preferredQualityOf (build_ydl_options td "audio" e q) =
      some "0") := by
  refine ⟨fun e u => (build_audio_fields td e u).1,
    fun u => by rw [(build_audio_pp td "mp3" u).1]; decide,
    fun u => by rw [(build_audio_pp td "m4a" u).1]; decide,
    fun u => by rw [(build_audio_pp td "wav" u).1]; decide,
    fun u => ?_,
    fun e => by rw [(build_audio_pp td e bestTierLabel).2]; decide,
    fun e => by rw [(build_audio_pp td e "192kbps").2]; decide,
    fun e => by rw [(build_audio_pp td e "128kbps").2]; decide,
    fun e => ?_⟩
  · rw [(build_audio_pp td ext u).1]
    unfold dict_get
    rw [hext]
  · rw [(build_audio_pp td e q).2]
    unfold dict_get
    rw [hq]

theorem build_ydl_options_audio_w :
    audio_format_map.find? (fun p => p.1 == "flac") = none ∧
    audio_quality_map.find? (fun p => p.1 == "320kbps") = none ∧
    (build_ydl_options "/tmp/scratch" "audio" "flac" "320kbps").format =
      some "bestaudio/best" :=
  ⟨by decide, by decide,
   (build_ydl_options_audio "/tmp/scratch" "flac" "320kbps" (by decide)
     (by decide)).1 "flac" "320kbps"⟩

theorem removeDir_not_exists (fs : FS) (d : String) :
    FS.dirExists (FS.removeDir fs d) d = false := by
  induction fs with
  | nil => rfl
  | cons e t ih =>
    cases he : (e.1 == d) with
    | true => simp [FS.removeDir, FS.dirExists, List.filter_cons, he] at ih ⊢
    | false => simp [FS.removeDir, FS.dirExists, List.filter_cons, he] at ih ⊢

theorem removeDir_filesOf (fs : FS) (d : String) :
    FS.filesOf (FS.removeDir fs d) d = [] := by
  induction fs with
  | nil => rfl
  | cons e t ih =>
    cases he : (e.1 == d) with
    | true => simpa [FS.removeDir, FS.filesOf, List.filter_cons, he] using ih
    | false =>
      simpa [FS.removeDir, FS.filesOf, List.filter_cons, List.find?, he]
        using ih

/-- C2: whenever the external fetch call completes without raising but
the scratch directory holds no files afterwards, `download_content`
raises the no-output-file-found error (the Hebrew message of line 577)
and in particular never returns name/bytes in that case. -/
theorem download_content_no_file (fs fs1 : FS) (temp_dir : String)
    (fetch : FS → FS × Except String Unit)
    (hfetch : fetch (FS.addDir fs temp_dir) = (fs1, Except.ok ()))
    (hempty : FS.filesOf fs1 temp_dir = []) :
    (download_content fs temp_dir fetch).1 = Except.error noFileMsg ∧
    ∀ name bytes, (download_content fs temp_dir fetch).1 ≠
      Except.ok (name, bytes) := by
  constructor
  · simp [download_content, hfetch, hempty]
  · intro name bytes
    simp [download_content, hfetch, hempty]

theorem download_content_no_file_w :
    (fun (s : FS) => (s, (Except.ok () : Except String Unit)))
        (FS.addDir [] "scratch") =
      (FS.addDir [] "scratch", Except.ok ()) ∧
    FS.filesOf (FS.addDir [] "scratch") "scratch" = [] ∧
    (download_content [] "scratch" fun s =>
      (s, (Except.ok () : Except String Unit))).1 =
      Except.error noFileMsg :=
  ⟨rfl, rfl,
   (download_content_no_file [] (FS.addDir [] "scratch") "scratch"
     (fun s => (s, (Except.ok () : Except String Unit))) rfl rfl).1⟩

/-- C3: on every exit path of `download_content` — normal return, the
no-output-file error, and any exception raised by the external library —
the per-call scratch directory and everything inside it no longer exist
after the call (the `tempfile.TemporaryDirectory` context manager removes
the directory tree on exit). -/
theorem download_content_cleanup (fs : FS) (temp_dir : String)
    (fetch : FS → FS × Except String Unit) :
    FS.dirExists (download_content fs temp_dir fetch).2 temp_dir = false ∧
    FS.filesOf (download_content fs temp_dir fetch).2 temp_dir = [] := by
  cases hfe : fetch (FS.addDir fs temp_dir) with
  | mk fs1 r =>
    constructor
    · simp [download_content, hfe, removeDir_not_exists]
    · simp [download_content, hfe, removeDir_filesOf]

/-- C10: whenever the fetch completes and the scratch directory then
holds one or more files, `download_content` returns the name and bytes of
the first file in the directory enumeration; additional files are
silently ignored (no exactly-one-file check), as the witness with two
files shows. -/
theorem download_content_first_file (fs fs1 : FS) (temp_dir name : String)
    (bytes : List Nat) (rest : DirFiles)
    (fetch : FS → FS × Except String Unit)
    (hfetch : fetch (FS.addDir fs temp_dir) = (fs1, Except.ok ()))
    (hfiles : FS.filesOf fs1 temp_dir = (name, bytes) :: rest) :
    (download_content fs temp_dir fetch).1 = Except.ok (name, bytes) := by
  simp [download_content, hfetch, hfiles]

theorem download_content_first_file_w :
    (fun (_ : FS) => ([("scratch", [("a.mp4", [1, 2]), ("b.mp4", [3])])],
        (Except.ok () : Except String Unit))) (FS.addDir [] "scratch") =
      ([("scratch", [("a.mp4", [1, 2]), ("b.mp4", [3])])], Except.ok ()) ∧
    FS.filesOf [("scratch", [("a.mp4", [1, 2]), ("b.mp4", [3])])] "scratch" =
      ("a.mp4", [1, 2]) :: [("b.mp4", [3])] ∧
    (download_content [] "scratch" fun _ =>
      ([("scratch", [("a.mp4", [1, 2]), ("b.mp4", [3])])], Except.ok ())).1 =
      Except.ok ("a.mp4", [1, 2]) :=
  ⟨rfl, rfl,
   download_content_first_file [] [("scratch", [("a.mp4", [1, 2]), ("b.mp4", [3])])]
     "scratch" "a.mp4" [1, 2] [("b.mp4", [3])]
     (fun _ => ([("scratch", [("a.mp4", [1, 2]), ("b.mp4", [3])])], Except.ok ()))
     rfl rfl⟩

/-- C6: a failed download attempt (the fetch raised, or raised the
no-output-file error because it produced no file — in either case the
download handler observes a raised error) leaves the whole session state,
and in particular the previously analyzed metadata, unchanged, so the
same metadata is still available for a retry. -/
theorem mainStep_failed_download_keeps_metadata (s : SessionState)
    (msg : String) :
    (mainStep s (Event.download (FetchOutcome.err msg))).metadata =
      s.metadata ∧
    mainStep s (Event.download (FetchOutcome.err msg)) = s := by
  cases hm : s.metadata with
  | none => exact ⟨by simp [mainStep, hm], by simp [mainStep, hm]⟩
  | some m => exact ⟨by simp [mainStep, hm], by simp [mainStep, hm]⟩

/-- C4 is wrong on the code: a successful re-analysis is an operation
other than a download, yet it clears the stored download bytes
(`st.session_state.file_ready = None`, src/app.py line 639).  Concretely,
a session holding a prepared file loses `file_ready` when a new URL is
analyzed successfully. -/
theorem analyze_clears_file_ready :
    (∀ r : FetchOutcome,
      Event.analyze "http://a.com" (ExtractOutcome.ok sampleMeta) ≠
        Event.download r) ∧
    sampleLoaded.file_ready = some [1, 2] ∧
    (mainStep sampleLoaded
      (Event.analyze "http://a.com" (ExtractOutcome.ok sampleMeta))).file_ready
      = none := by
  refine ⟨(fun r hr => by cases hr), rfl, ?_⟩
  decide

/-- C4 (amended): once a DownloadResult is in session state, every
operation leaves the stored bytes and name unchanged, except a
successful download, which replaces both wholesale, and a successful
analyze, which clears the stored bytes to None (while leaving the stored
file name); no other operation clears or overwrites it. -/
theorem mainStep_file_ready_transitions (s : SessionState) (e : Event) :
    ((mainStep s e).file_ready = s.file_ready ∧
     (mainStep s e).file_name = s.file_name) ∨
    (∃ name bytes, e = Event.download (FetchOutcome.ok name bytes) ∧
      (mainStep s e).file_ready = some bytes ∧
      (mainStep s e).file_name = some name) ∨
    (∃ url m, e = Event.analyze url (ExtractOutcome.ok m) ∧
      (mainStep s e).file_ready = none ∧
      (mainStep s e).file_name = s.file_name) := by
  cases e with
  | idle => exact Or.inl ⟨rfl, rfl⟩
  | analyze url res =>
    cases hu : (url == "") with
    | true => exact Or.inl (by simp [mainStep, hu])
    | false =>
      cases hv : validate_url url with
      | false => exact Or.inl (by simp [mainStep, hu, hv])
      | true =>
        cases res with
        | ok m =>
          exact Or.inr (Or.inr ⟨url, m, rfl, by simp [mainStep, hu, hv],
            by simp [mainStep, hu, hv]⟩)
        | empty => exact Or.inl (by simp [mainStep, hu, hv])
        | err msg => exact Or.inl (by simp [mainStep, hu, hv])
  | download res =>
    cases hm : s.metadata with
    | none => exact Or.inl (by simp [mainStep, hm])
    | some m =>
      cases res with
      | ok name bytes =>
        exact Or.inr (Or.inl ⟨name, bytes, rfl, by simp [mainStep, hm],
          by simp [mainStep, hm]⟩)
      | err msg => exact Or.inl (by simp [mainStep, hm])

end App
